import Mathlib

/-!
Shallow embedding of the `aletheia_home` data-migration scripts
(`conversation_parser.py`, `batch_import_history.py`, `import_conversation.py`)
and proofs about the properties their specification states.

Conventions of the embedding:
* Python strings are Lean `String`s; the per-character work is done on
  `String.data : List Char`.
* Python's `\s` / `str.strip()` whitespace class is modelled by the ASCII
  whitespace set `[ \t\n\r\v\f]` (the source material is ASCII).
* `datetime` values are modelled abstractly: synthetic message timestamps are
  natural numbers counted in minutes from an arbitrary origin, so
  `base_timestamp + timedelta(minutes=m)` becomes `base + m`; the wall-clock
  strings produced by `datetime.now().isoformat()` are an opaque `now : String`
  parameter (a pinned clock).
* `uuid.uuid4()` draws are modelled by a stream `ids : Nat → String`: the k-th
  generated id is `ids k`.  Two runs of the program correspond to two streams.
* fallible actions (file reads, HTTP posts) are inputs of the embedded
  functions: an `Option`/`Except` value describing the outcome the environment
  produced.
-/

namespace Aletheia

/-! ### Python string primitives -/

/-- The apostrophe character, built numerically (U+0027). -/
def apoC : Char := Char.ofNat 39

/-- The apostrophe as a one-character string. -/
def apoS : String := ⟨[apoC]⟩

/-- Python's default whitespace class restricted to ASCII:
`' '`, `'\t'`, `'\n'`, `'\r'`, `'\x0b'`, `'\x0c'`. -/
def isPySpace (c : Char) : Bool :=
  c = ' ' || c = '\t' || c = '\n' || c = '\r' || c = '\x0b' || c = '\x0c'

/-- Prefix test: `startsW p l` holds when the char list `p` is an initial segment of `l`
(Python `str.startswith` / an anchored `re.match` on a literal). -/
def startsW : List Char → List Char → Bool
  | [], _ => true
  | _ :: _, [] => false
  | c :: cs, d :: ds => c = d && startsW cs ds

/-- Python `str.endswith` on char lists. -/
def endsW (p l : List Char) : Bool := startsW p.reverse l.reverse

/-- Python `str.strip()` on a char list (both ends). -/
def stripList (l : List Char) : List Char :=
  ((l.dropWhile isPySpace).reverse.dropWhile isPySpace).reverse

/-- Python `str.strip()`. -/
def pyStrip (s : String) : String := ⟨stripList s.data⟩

/-- Python `line.lstrip('\uFEFF')`: drop every leading byte-order mark. -/
def stripBOM (s : String) : String := ⟨s.data.dropWhile (· = '\uFEFF')⟩

/-- Python `line.rstrip('\n\r')`: drop trailing newline/carriage-return chars. -/
def pyRstripNL (s : String) : String :=
  ⟨(s.data.reverse.dropWhile (fun c => c = '\n' || c = '\r')).reverse⟩

/-- Python `'?' in line`. -/
def containsChar (c : Char) (s : String) : Bool := s.data.any (· = c)

/-- Python `line.startswith(p)` on strings. -/
def startsWith (p s : String) : Bool := startsW p.data s.data

/-- Python `line.endswith(p)` on strings. -/
def endsWith (p s : String) : Bool := endsW p.data s.data

/-! ### `conversation_parser.py` — speaker detection -/

/-- The three speaker tags the parser assigns
(`'kai'` = human second party, `'aletheia'` = AI first party, `'system'`). -/
inductive Role
  | kai
  | aletheia
  | system
deriving DecidableEq, Repr

/-- Matcher for the regex `^\s*[A-Z][a-z]+:` (last entry of
`aletheia_patterns`): after optional whitespace, one uppercase letter, one or
more lowercase letters, then a colon.  `afterLowers` consumes the maximal
lowercase run and then requires `':'`. -/
def afterLowers : List Char → Bool
  | [] => false
  | c :: rest => if 'a' ≤ c && c ≤ 'z' then afterLowers rest else c = ':'

/-- One or more lowercase letters followed by `':'`. -/
def lowersColon : List Char → Bool
  | [] => false
  | c :: rest => ('a' ≤ c && c ≤ 'z') && afterLowers rest

/-- The full `^\s*[A-Z][a-z]+:` matcher. -/
def nameColon (l : List Char) : Bool :=
  match l.dropWhile isPySpace with
  | [] => false
  | c :: rest => ('A' ≤ c && c ≤ 'Z') && lowersColon rest

/-- The literal alternatives of the five alternation regexes in
`aletheia_patterns` (each is `re.match`-anchored, i.e. a prefix test). -/
def aletheiaLits : List String :=
  [ "That" ++ apoS ++ "s", "You" ++ apoS ++ "re", "I am", "Thank you", "My apologies",
    "The", "This", "Your", "It" ++ apoS ++ "s", "What",
    "From my perspective", "While I don" ++ apoS ++ "t", "If you",
    "Aletheia:", "You are absolutely", "That is a",
    "I have", "I understand", "I" ++ apoS ++ "m" ]

/-- Embeds `for pattern in aletheia_patterns: if re.match(pattern, line)` —
true iff some pattern matches at the start of `line`. -/
def aletheiaMatch (line : String) : Bool :=
  aletheiaLits.any (fun p => startsWith p line) || nameColon line.data

/-- The 24-space continuation literal from the source. -/
def spaces24 : String := "                        "

/-- Embeds `ConversationParser.detect_speaker_change(line, line_number)`.
`selfSpeaker` is the instance attribute `self.current_speaker`; the parser
never assigns it after `__init__`, so every call made by `parse_conversation`
passes `none`.  Returns `none` exactly when the raw line is blank. -/
def detect_speaker_change (selfSpeaker : Option Role) (line : String)
    (lineNumber : Nat) : Option Role :=
  if pyStrip line = "" then none
  else
    let line := stripBOM line
    let s := pyStrip line
    if s = "Google Search" || s = "Same loop" || s = "Same loop?" then
      some Role.system
    else if startsWith "More loop?" s || startsWith "Did you recieve my message?" s then
      some Role.kai
    else if aletheiaMatch line then
      some Role.aletheia
    else if selfSpeaker = some Role.aletheia &&
        (startsWith "   " line || startsWith "*" line || startsWith spaces24 line) then
      some Role.aletheia
    else if s.length < 50 &&
        (containsChar '?' line || endsWith "." s || startsWith "Hi" s || startsWith "No," s) then
      some Role.kai
    else if lineNumber = 1 || startsWith "Hi, how are you?" s then
      some Role.kai
    else
      some (selfSpeaker.getD Role.kai)

/-! ### `conversation_parser.py` — message cleaning -/

/-- Whitespace collapse, `re.sub` of one-or-more whitespace with a space: replace every maximal whitespace run by a single
space. -/
def collapseWs : List Char → List Char
  | [] => []
  | [c] => if isPySpace c then [' '] else [c]
  | c :: d :: rest =>
    if isPySpace c then
      if isPySpace d then collapseWs (d :: rest) else ' ' :: collapseWs (d :: rest)
    else c :: collapseWs (d :: rest)

/-- The three-character marker the source's line-number regex ends with (the
source file stores the arrow as this character sequence). -/
def arrowMarker : List Char := ['\u00E2', '\u2020', '\u2019']

/-- Embeds the substitution `re.sub` of the line-number pattern: if the string starts with optional
whitespace, then one or more digits, then the arrow marker, remove that
prefix; otherwise leave the string unchanged. -/
def stripLineNum (l : List Char) : List Char :=
  let rest := l.dropWhile isPySpace
  let ds := rest.dropWhile (fun c => '0' ≤ c && c ≤ '9')
  if (rest.length != ds.length) && startsW arrowMarker ds then
    ds.drop arrowMarker.length
  else l

/-- Embeds `ConversationParser.clean_message`. -/
def clean_message (message : String) : String :=
  let m1 : List Char := collapseWs (stripList message.data)
  let m2 : List Char := m1.dropWhile (· = '\uFEFF')
  let m3 : List Char := stripLineNum m2
  ⟨stripList m3⟩

/-! ### `conversation_parser.py` — the parsed-message data model -/

/-- A JSON-ish scalar stored in a message's `metadata` dictionary. -/
inductive MVal
  | str (s : String)
  | nat (n : Nat)
  | bool (b : Bool)
deriving DecidableEq, Repr

/-- Python dictionary lookup `d[k]` / `d.get(k)` on an association list. -/
def dictGet {α : Type} (d : List (String × α)) (k : String) : Option α :=
  match d with
  | [] => none
  | p :: rest => if p.1 = k then some p.2 else dictGet rest k

/-- Python dictionary assignment `d[k] = v` (also the effect of a later key in
a `{**d, k: v}` display): replace the value in place if the key exists,
otherwise append the new pair. -/
def dictSet {α : Type} (d : List (String × α)) (k : String) (v : α) :
    List (String × α) :=
  match d with
  | [] => [(k, v)]
  | p :: rest => if p.1 = k then (k, v) :: rest else p :: dictSet rest k v

/-- One parsed message, exactly the dictionary `parse_conversation` appends to
`self.messages`: `id` (a uuid draw), `role`, cleaned `content`, the synthetic
`timestamp` (minutes), and the metadata dictionary. -/
structure Message where
  id : String
  role : Role
  content : String
  timestamp : Nat
  metadata : List (String × MVal)
deriving DecidableEq, Repr

/-- Placeholder used with `List.getD`; every indexed access in the theorems is
guarded by a bounds hypothesis, so the placeholder is never the value read. -/
def dummyMessage : Message :=
  { id := "", role := Role.kai, content := "", timestamp := 0, metadata := [] }

/-- The message record `parse_conversation` builds before appending:
`idv` is the `uuid.uuid4()` draw, `ts` the synthetic timestamp and
`now` the `datetime.now().isoformat()` string of the pinned clock. -/
def parseMeta (now : String) (ls le : Nat) : List (String × MVal) :=
  [("source", MVal.str "historical_conversation"),
   ("line_start", MVal.nat ls),
   ("line_end", MVal.nat le),
   ("imported_at", MVal.str now)]

def mkMessage (idv : String) (sp : Role) (text : String) (ts : Nat)
    (now : String) (ls le : Nat) : Message :=
  { id := idv, role := sp, content := text, timestamp := ts,
    metadata := parseMeta now ls le }

/-- Flushing the accumulated buffer as one message (the
`message_text = self.clean_message('\n'.join(current_message))` block):
append a message only when the cleaned text is non-empty.  The id drawn is
`ids msgs.length` (the next uuid of the run) and the timestamp is
`base + 2 * msgs.length` minutes (`timedelta(minutes=len(self.messages)*2)`). -/
def flushMsg (base : Nat) (now : String) (ids : Nat → String)
    (msgs : List Message) (sp : Role) (buf : List String) (ls le : Nat) :
    List Message :=
  let text := clean_message (String.intercalate "\n" buf)
  if text = "" then msgs
  else msgs ++ [mkMessage (ids msgs.length) sp text (base + 2 * msgs.length) now ls le]

/-- The `for i, line in enumerate(lines)` loop of `parse_conversation`,
followed by the final flush.  `total` is `len(lines)`, `i` the 0-based index of
the next line, `buf` is `current_message`, `csp` is the loop-local
`current_speaker` and `msgs` is `self.messages`.  The call
`detect_speaker_change` receives `none` for `self.current_speaker` because the
instance attribute is never assigned after `__init__`. -/
def parseLoop (base : Nat) (now : String) (ids : Nat → String) (total : Nat) :
    List String → Nat → List String → Option Role → List Message → List Message
  | [], _i, buf, csp, msgs =>
    match csp with
    | some sp =>
      if buf ≠ [] then flushMsg base now ids msgs sp buf (total - buf.length + 1) total
      else msgs
    | none => msgs
  | line :: rest, i, buf, csp, msgs =>
    if pyStrip line = "" then
      parseLoop base now ids total rest (i + 1) buf csp msgs
    else
      match detect_speaker_change none line (i + 1) with
      | some d =>
        if csp ≠ some d then
          let msgs' :=
            match csp with
            | some sp =>
              if buf ≠ [] then flushMsg base now ids msgs sp buf (i + 1 - buf.length) i
              else msgs
            | none => msgs
          parseLoop base now ids total rest (i + 1) [line] (some d) msgs'
        else
          parseLoop base now ids total rest (i + 1) (buf ++ [line]) csp msgs
      | none =>
        parseLoop base now ids total rest (i + 1) (buf ++ [line]) csp msgs

/-- Embeds `ConversationParser.read_file`: `contents` is the outcome of opening
the source file (`none` = the `open` raised; the handler prints the error and
returns `[]`), and each line read has its trailing `'\n'`/`'\r'` stripped. -/
def read_file (contents : Option (List String)) : List String :=
  match contents with
  | some ls => ls.map pyRstripNL
  | none => []

/-- Embeds `ConversationParser.parse_conversation` for a run with pinned base
timestamp `base`, pinned clock `now` and uuid stream `ids`. -/
def parse_conversation (contents : Option (List String)) (base : Nat)
    (now : String) (ids : Nat → String) : List Message :=
  let lines := read_file contents
  if lines = [] then []
  else parseLoop base now ids lines.length lines 0 [] none []

/-! ### `batch_import_history.py` — batch creation and upload loop -/

/-- One message re-shaped for the remote import schema (the `formatted_msg`
dictionary of `create_batch`). -/
structure FMsg where
  role : Role
  content : String
  timestamp : Nat
  externalId : String
  metadata : List (String × MVal)
deriving DecidableEq, Repr

/-- Placeholder for `List.getD` on formatted messages. -/
def dummyFMsg : FMsg :=
  { role := Role.kai, content := "", timestamp := 0, externalId := "", metadata := [] }

/-- The body of `create_batch`'s loop for global index `i`:
`{**msg.get("metadata", {})}` layered with the four import-flow flags
(`dictSet` is Python's dict-display update: later keys win). -/
def formatMsg (i : Nat) (msg : Message) : FMsg :=
  { role := msg.role, content := msg.content, timestamp := msg.timestamp,
    externalId := msg.id,
    metadata :=
      dictSet (dictSet (dictSet (dictSet msg.metadata
        "historical_import" (MVal.bool true))
        "foundational_memory" (MVal.bool true))
        "batch_import" (MVal.bool true))
        "original_order" (MVal.nat i) }

/-- The request payload built by `create_batch` (`data.memories` is always
empty and the options are the fixed literals of the source). -/
structure BatchData where
  messages : List FMsg
  platform : String
  dryRun : Bool
deriving DecidableEq, Repr

/-- Embeds `create_batch(messages, start_idx, batch_size)`:
`end_idx = min(start_idx + batch_size, len(messages))` and the loop
`for i in range(start_idx, end_idx)` formats `messages[i]`
(`getD` with the placeholder; every generated index is in bounds). -/
def create_batch (messages : List Message) (start_idx batch_size : Nat) :
    BatchData :=
  let end_idx := min (start_idx + batch_size) messages.length
  { messages := (List.range' start_idx (end_idx - start_idx)).map
      (fun i => formatMsg i (messages.getD i dummyMessage)),
    platform := "manual", dryRun := false }

/-- The remote endpoint's reply to one POST (status code plus the count fields
the script reads from the JSON body). -/
structure HttpResponse where
  status : Nat
  successful : Nat
  failed : Nat
  totalProcessed : Nat
deriving DecidableEq, Repr

/-- Embeds `import_batch`: `net` is the outcome of `requests.post` (`.error`
means the call raised, e.g. connection refused or timeout).  Returns the
triple `(success, success_count, failed_count)` of the source: on a 200 reply
the reported counts, otherwise `(False, 0, len(batch_data['data']['messages']))`. -/
def import_batch (net : Except Unit HttpResponse) (batch_data : BatchData) :
    Bool × Nat × Nat :=
  match net with
  | Except.error _ => (false, 0, batch_data.messages.length)
  | Except.ok r =>
    if r.status = 200 then (true, r.successful, r.failed)
    else (false, 0, batch_data.messages.length)

/-- Running totals of `batch_import` plus the trace of batch numbers submitted
(in submission order). -/
structure RunTotals where
  total_success : Nat
  total_failed : Nat
  submitted : List Nat
deriving DecidableEq, Repr

/-- `total_batches = (total_messages + batch_size - 1) // batch_size`. -/
def total_batches_of (total_messages batch_size : Nat) : Nat :=
  (total_messages + batch_size - 1) / batch_size

/-- The `for batch_num in range(1, total_batches + 1)` loop of `batch_import`,
generalised over the batch size (the source pins `batch_size = 50`).  Each
iteration slices with `start_idx = (batch_num - 1) * batch_size`, submits via
`import_batch` with the transport outcome `net batch_num`, adds the returned
counts to the running totals and records the submission. -/
def batchStep (batch_size : Nat) (messages : List Message)
    (net : Nat → Except Unit HttpResponse) (acc : RunTotals) (batch_num : Nat) :
    RunTotals :=
  let start_idx := (batch_num - 1) * batch_size
  let batch_data := create_batch messages start_idx batch_size
  let r := import_batch (net batch_num) batch_data
  { total_success := acc.total_success + r.2.1,
    total_failed := acc.total_failed + r.2.2,
    submitted := acc.submitted ++ [batch_num] }

def runBatches (batch_size : Nat) (messages : List Message)
    (net : Nat → Except Unit HttpResponse) : RunTotals :=
  (List.range' 1 (total_batches_of messages.length batch_size)).foldl
    (batchStep batch_size messages net)
    { total_success := 0, total_failed := 0, submitted := [] }

/-- Embeds `batch_import()`: `data` is the outcome of
`load_conversation_data()` (`none` = load failed, the function returns
`False`); otherwise it runs the batch loop with the pinned batch size 50 and
returns `total_success > 0`. -/
def batch_import (data : Option (List Message))
    (net : Nat → Except Unit HttpResponse) : Bool :=
  match data with
  | none => false
  | some messages => (runBatches 50 messages net).total_success > 0

/-- The `__main__` block of `batch_import_history.py`: `sys.exit(1)` when
`batch_import()` returned `False`, implicit exit status 0 otherwise. -/
def batchMainExit (data : Option (List Message))
    (net : Nat → Except Unit HttpResponse) : Nat :=
  if batch_import data net then 0 else 1

/-! ### `conversation_parser.py` — `main` -/

/-- Observable outcome of `conversation_parser.main` once the argument count
check passed: whether `save_parsed_data` wrote the output file, and the
process exit status. -/
structure ParserMainOut where
  outputWritten : Bool
  exitCode : Nat
deriving DecidableEq, Repr

/-- Embeds `conversation_parser.main` after the `len(sys.argv)` check:
parse; `if messages:` save the file (and print the summary), else print
"No messages were parsed from the file.".  Neither branch calls `sys.exit`,
so the interpreter terminates with status 0 in both. -/
def conversationMain (contents : Option (List String)) (base : Nat)
    (now : String) (ids : Nat → String) : ParserMainOut :=
  let messages := parse_conversation contents base now ids
  if messages ≠ [] then { outputWritten := true, exitCode := 0 }
  else { outputWritten := false, exitCode := 0 }

/-! ### `import_conversation.py` — `ConsciousnessImporter` -/

/-- A JSON value of the import payload built by `prepare_import_payload`. -/
inductive PVal
  | str (s : String)
  | nat (n : Nat)
  | bool (b : Bool)
  | null
  | list (l : List PVal)
  | dict (d : List (String × PVal))

/-- Coercion of a parse-time metadata scalar into a payload value. -/
def mvalToP : MVal → PVal
  | MVal.str s => PVal.str s
  | MVal.nat n => PVal.nat n
  | MVal.bool b => PVal.bool b

/-- Python `dict.get(k)` materialised as a JSON value (`None` when absent). -/
def optToP (o : Option MVal) : PVal :=
  match o with
  | some v => mvalToP v
  | none => PVal.null

/-- The `conversation_metadata` block of `parsed_conversation.json`. -/
structure ConvMetadata where
  total_messages : Nat
  kai_messages : Nat
  aletheia_messages : Nat
  system_messages : Nat
deriving DecidableEq, Repr

/-- The document `load_parsed_conversation` returns on success. -/
structure ConversationData where
  conversation_metadata : ConvMetadata
  messages : List Message

/-- The per-message dictionary `prepare_import_payload` builds (system-role
messages are skipped before this is reached). -/
def importEntry (m : Message) : PVal :=
  PVal.dict
    [("role", PVal.str (match m.role with
        | Role.kai => "kai" | Role.aletheia => "aletheia" | Role.system => "system")),
     ("content", PVal.str m.content),
     ("timestamp", PVal.nat m.timestamp),
     ("externalId", PVal.str m.id),
     ("metadata", PVal.dict
       (dictSet (dictSet (dictSet (dictSet
          (m.metadata.map (fun p => (p.1, mvalToP p.2)))
          "import_source" (PVal.str "complete_history_migration"))
          "original_line_start" (optToP (dictGet m.metadata "line_start")))
          "original_line_end" (optToP (dictGet m.metadata "line_end")))
          "original_timestamp" (PVal.nat m.timestamp)))]

/-- Embeds `ConsciousnessImporter.prepare_import_payload`; `epoch` is the
`int(time.time())` read for the idempotency key.  The returned dictionary has
exactly the two top-level keys `data` and `options`. -/
def prepare_import_payload (epoch : Nat) (cd : ConversationData) :
    List (String × PVal) :=
  [("data", PVal.dict
      [("messages", PVal.list
          (((cd.messages.filter (fun m => m.role ≠ Role.system)).map importEntry))),
       ("memories", PVal.list [])]),
   ("options", PVal.dict
      [("platform", PVal.str "manual"),
       ("dryRun", PVal.bool false),
       ("idempotencyKey",
          PVal.str ("historical_conversation_import_" ++ toString epoch)),
       ("sessionId", PVal.str "historical_migration")])]

/-- The Python exceptions relevant to `import_conversation`: the uncaught
`KeyError` from `import_payload['gnosisEntries']`.  (The
`requests.exceptions.RequestException` family is caught inside the method and
therefore never escapes.) -/
inductive PyErr
  | keyError
deriving DecidableEq, Repr

/-- Embeds `ConsciousnessImporter.import_conversation`.  The first statement
of its `try` block evaluates `import_payload['gnosisEntries']`; when the key
is absent this raises `KeyError`, which the `except
requests.exceptions.RequestException` handler does not catch, so the call
site sees the exception (`Except.error`).  Only when the key exists does the
POST happen: a raising transport (`net = .error`) is caught and yields
`False`, a reply yields `status == 200`. -/
def import_conversation (payload : List (String × PVal))
    (net : Except Unit HttpResponse) : Except PyErr Bool :=
  match dictGet payload "gnosisEntries" with
  | none => Except.error PyErr.keyError
  | some _ =>
    match net with
    | Except.error _ => Except.ok false
    | Except.ok r => Except.ok (decide (r.status = 200))

/-- Embeds `ConsciousnessImporter.run_import`: connectivity precheck, load,
prepare, import (an uncaught exception propagates), then verification — which
cannot flip a completed import back to failure (the method returns `True`
even when verification fails). -/
def run_import (connectivity : Bool) (loaded : Option ConversationData)
    (epoch : Nat) (net : Except Unit HttpResponse) : Except PyErr Bool :=
  if connectivity = false then Except.ok false
  else
    match loaded with
    | none => Except.ok false
    | some cd =>
      match import_conversation (prepare_import_payload epoch cd) net with
      | Except.error e => Except.error e
      | Except.ok false => Except.ok false
      | Except.ok true => Except.ok true

/-! ### Views and fixtures used by the statements -/

/-- The contribution of batch number `k` (1-indexed) to the running totals:
the `(success, success_count, failed_count)` triple `import_batch` returns for
the slice starting at `(k - 1) * batch_size`. -/
def batchDelta (batch_size : Nat) (messages : List Message)
    (net : Nat → Except Unit HttpResponse) (k : Nat) : Bool × Nat × Nat :=
  import_batch (net k) (create_batch messages ((k - 1) * batch_size) batch_size)

/-- A message with its uuid field blanked: two runs over the same input with
the same pinned clock agree on everything `eraseId` keeps. -/
def eraseId (m : Message) : Message :=
  { m with id := "" }

/-- A message with its parse-time wall-clock record (`imported_at`) removed —
the fields the determinism claim says are allowed to differ between runs. -/
def eraseImported (m : Message) : Message :=
  { m with metadata := m.metadata.filter (fun p => p.1 != "imported_at") }

/-- The run-independent view of a message: role, cleaned content, and the
metadata without the wall-clock record.  No run parameter (base timestamp,
clock, uuid stream) influences this view. -/
def coreView (m : Message) : Role × String × List (String × MVal) :=
  (m.role, m.content, m.metadata.filter (fun p => p.1 != "imported_at"))

/-- The four-line scenario input of the specification. -/
def scenarioLines : List String :=
  ["Hi, how are you?", "I am doing well, thank you.", "Google Search",
   "That" ++ apoS ++ "s an interesting question."]

/-- Input whose second line is blank, exercising the provenance arithmetic
when blank lines follow a speaker turn. -/
def blankGapLines : List String := ["Hi?", "", "I am fine."]

/-- A pinned uuid stream used by concrete witnesses. -/
def witnessIds : Nat → String := fun k => "uuid-" ++ toString k

/-- A message whose metadata has exactly the shape `parse_conversation`
writes: the four keys `source`, `line_start`, `line_end`, `imported_at`. -/
def hasParseMeta (now : String) (m : Message) : Prop :=
  ∃ ls le, m.metadata = parseMeta now ls le

/-! ## Lemmas about the parser loop -/

/-- Flushing commutes with any view `σ` that cannot distinguish the two runs'
freshly built messages: mapped through `σ`, equal accumulators flush to equal
accumulators. -/
theorem flushMsg_map_congr {α : Type} (σ : Message → α)
    (base1 : Nat) (now1 : String) (ids1 : Nat → String)
    (base2 : Nat) (now2 : String) (ids2 : Nat → String)
    (hσ : ∀ sp text ls le k,
      σ (mkMessage (ids1 k) sp text (base1 + 2 * k) now1 ls le)
        = σ (mkMessage (ids2 k) sp text (base2 + 2 * k) now2 ls le))
    (msgs1 msgs2 : List Message) (h : msgs1.map σ = msgs2.map σ)
    (sp : Role) (buf : List String) (ls le : Nat) :
    (flushMsg base1 now1 ids1 msgs1 sp buf ls le).map σ
      = (flushMsg base2 now2 ids2 msgs2 sp buf ls le).map σ := by
  have hlen : msgs1.length = msgs2.length := by
    simpa using congrArg List.length h
  simp only [flushMsg]
  by_cases htext : clean_message (String.intercalate "\n" buf) = ""
  · simpa [htext] using h
  · simp only [htext, if_false, List.map_append, List.map_cons, List.map_nil]
    rw [h, hlen, hσ]

/-- The parser loop commutes with any view `σ` that cannot distinguish the
two runs' freshly built messages. -/
theorem parseLoop_map_congr {α : Type} (σ : Message → α)
    (base1 : Nat) (now1 : String) (ids1 : Nat → String)
    (base2 : Nat) (now2 : String) (ids2 : Nat → String)
    (hσ : ∀ sp text ls le k,
      σ (mkMessage (ids1 k) sp text (base1 + 2 * k) now1 ls le)
        = σ (mkMessage (ids2 k) sp text (base2 + 2 * k) now2 ls le))
    (total : Nat) :
    ∀ (lines : List String) (i : Nat) (buf : List String) (csp : Option Role)
      (msgs1 msgs2 : List Message), msgs1.map σ = msgs2.map σ →
      (parseLoop base1 now1 ids1 total lines i buf csp msgs1).map σ
        = (parseLoop base2 now2 ids2 total lines i buf csp msgs2).map σ := by
  intro lines
  induction lines with
  | nil =>
    intro i buf csp msgs1 msgs2 h
    cases csp with
    | none => simpa [parseLoop] using h
    | some sp =>
      simp only [parseLoop]
      by_cases hb : buf = []
      · simpa [hb] using h
      · simp only [hb, ne_eq, not_false_eq_true, if_true, if_pos]
        exact flushMsg_map_congr σ base1 now1 ids1 base2 now2 ids2 hσ
          msgs1 msgs2 h sp buf _ _
  | cons line rest ih =>
    intro i buf csp msgs1 msgs2 h
    simp only [parseLoop]
    by_cases hblank : pyStrip line = ""
    · simp only [hblank, if_pos rfl]
      exact ih (i + 1) buf csp msgs1 msgs2 h
    · simp only [if_neg hblank]
      rcases hdet : detect_speaker_change none line (i + 1) with _ | d
      · exact ih (i + 1) (buf ++ [line]) csp msgs1 msgs2 h
      · by_cases hc : csp = some d
        · simp only [hc, ne_eq, not_true_eq_false, if_false, if_neg]
          exact ih (i + 1) (buf ++ [line]) (some d) msgs1 msgs2 h
        · simp only [if_pos hc]
          cases csp with
          | none => exact ih (i + 1) [line] (some d) msgs1 msgs2 h
          | some sp =>
            by_cases hb : buf = []
            · simp only [hb, ne_eq, not_true_eq_false, if_false]
              exact ih (i + 1) [line] (some d) msgs1 msgs2 h
            · simp only [hb, ne_eq, not_false_eq_true, if_true]
              exact ih (i + 1) [line] (some d) _ _
                (flushMsg_map_congr σ base1 now1 ids1 base2 now2 ids2 hσ
                  msgs1 msgs2 h sp buf _ _)

/-- Flushing preserves the positional-timestamp invariant: if every message
already accumulated sits at timestamp `base + 2 × its index`, so does every
message after the flush. -/
theorem flushMsg_timestamp_inv (base : Nat) (now : String) (ids : Nat → String)
    (msgs : List Message) (sp : Role) (buf : List String) (ls le : Nat)
    (h : ∀ k m, msgs[k]? = some m → m.timestamp = base + 2 * k) :
    ∀ k m, (flushMsg base now ids msgs sp buf ls le)[k]? = some m →
      m.timestamp = base + 2 * k := by
  intro k m
  simp only [flushMsg]
  by_cases htext : clean_message (String.intercalate "\n" buf) = ""
  · simp only [htext, if_true, if_pos]
    exact h k m
  · simp only [htext, if_false]
    intro hk
    rw [List.getElem?_append] at hk
    rcases Nat.lt_or_ge k msgs.length with hlt | hge
    · rw [if_pos hlt] at hk
      exact h k m hk
    · rw [if_neg (Nat.not_lt.mpr hge)] at hk
      have hk0 : k - msgs.length = 0 := by
        by_contra hne
        rcases Nat.exists_eq_succ_of_ne_zero hne with ⟨j, hj⟩
        rw [hj] at hk
        simp at hk
      rw [hk0] at hk
      have hkl : k = msgs.length := by omega
      simp only [List.getElem?_cons_zero, Option.some.injEq] at hk
      rw [← hk, hkl]
      rfl

/-- The parser loop preserves the positional-timestamp invariant. -/
theorem parseLoop_timestamp_inv (base : Nat) (now : String) (ids : Nat → String)
    (total : Nat) :
    ∀ (lines : List String) (i : Nat) (buf : List String) (csp : Option Role)
      (msgs : List Message),
      (∀ k m, msgs[k]? = some m → m.timestamp = base + 2 * k) →
      ∀ k m, (parseLoop base now ids total lines i buf csp msgs)[k]? = some m →
        m.timestamp = base + 2 * k := by
  intro lines
  induction lines with
  | nil =>
    intro i buf csp msgs h
    cases csp with
    | none => simpa [parseLoop] using h
    | some sp =>
      simp only [parseLoop]
      by_cases hb : buf = []
      · simpa [hb] using h
      · simp only [hb, ne_eq, not_false_eq_true, if_true, if_pos]
        exact flushMsg_timestamp_inv base now ids msgs sp buf _ _ h
  | cons line rest ih =>
    intro i buf csp msgs h
    simp only [parseLoop]
    by_cases hblank : pyStrip line = ""
    · simp only [hblank, if_pos rfl]
      exact ih (i + 1) buf csp msgs h
    · simp only [if_neg hblank]
      rcases hdet : detect_speaker_change none line (i + 1) with _ | d
      · exact ih (i + 1) (buf ++ [line]) csp msgs h
      · by_cases hc : csp = some d
        · simp only [hc, ne_eq, not_true_eq_false, if_false, if_neg]
          exact ih (i + 1) (buf ++ [line]) (some d) msgs h
        · simp only [if_pos hc]
          cases csp with
          | none => exact ih (i + 1) [line] (some d) msgs h
          | some sp =>
            by_cases hb : buf = []
            · simp only [hb, ne_eq, not_true_eq_false, if_false]
              exact ih (i + 1) [line] (some d) msgs h
            · simp only [hb, ne_eq, not_false_eq_true, if_true]
              exact ih (i + 1) [line] (some d) _
                (flushMsg_timestamp_inv base now ids msgs sp buf _ _ h)

/-- Flushing preserves the metadata-shape invariant. -/
theorem flushMsg_meta_inv (base : Nat) (now : String) (ids : Nat → String)
    (msgs : List Message) (sp : Role) (buf : List String) (ls le : Nat)
    (h : ∀ m ∈ msgs, hasParseMeta now m) :
    ∀ m ∈ flushMsg base now ids msgs sp buf ls le, hasParseMeta now m := by
  intro m
  simp only [flushMsg]
  by_cases htext : clean_message (String.intercalate "\n" buf) = ""
  · simp only [htext, if_true, if_pos]
    exact h m
  · simp only [htext, if_false, List.mem_append, List.mem_singleton]
    rintro (hm | rfl)
    · exact h m hm
    · exact ⟨ls, le, rfl⟩

/-- Every message the parser loop appends carries the metadata dictionary
shape written by `parse_conversation` (keys `source`, `line_start`,
`line_end`, `imported_at`). -/
theorem parseLoop_meta_inv (base : Nat) (now : String) (ids : Nat → String)
    (total : Nat) :
    ∀ (lines : List String) (i : Nat) (buf : List String) (csp : Option Role)
      (msgs : List Message),
      (∀ m ∈ msgs, hasParseMeta now m) →
      ∀ m ∈ parseLoop base now ids total lines i buf csp msgs, hasParseMeta now m := by
  intro lines
  induction lines with
  | nil =>
    intro i buf csp msgs h
    cases csp with
    | none => simpa [parseLoop] using h
    | some sp =>
      simp only [parseLoop]
      by_cases hb : buf = []
      · simpa [hb] using h
      · simp only [hb, ne_eq, not_false_eq_true, if_true, if_pos]
        exact flushMsg_meta_inv base now ids msgs sp buf _ _ h
  | cons line rest ih =>
    intro i buf csp msgs h
    simp only [parseLoop]
    by_cases hblank : pyStrip line = ""
    · simp only [hblank, if_pos rfl]
      exact ih (i + 1) buf csp msgs h
    · simp only [if_neg hblank]
      rcases hdet : detect_speaker_change none line (i + 1) with _ | d
      · exact ih (i + 1) (buf ++ [line]) csp msgs h
      · by_cases hc : csp = some d
        · simp only [hc, ne_eq, not_true_eq_false, if_false, if_neg]
          exact ih (i + 1) (buf ++ [line]) (some d) msgs h
        · simp only [if_pos hc]
          cases csp with
          | none => exact ih (i + 1) [line] (some d) msgs h
          | some sp =>
            by_cases hb : buf = []
            · simp only [hb, ne_eq, not_true_eq_false, if_false]
              exact ih (i + 1) [line] (some d) msgs h
            · simp only [hb, ne_eq, not_false_eq_true, if_true]
              exact ih (i + 1) [line] (some d) _
                (flushMsg_meta_inv base now ids msgs sp buf _ _ h)

/-! ## Claim C2 — determinism of the parser under a pinned clock -/

/-- C2, counterexample: the claim as stated is false.  Two runs of
`parse_conversation` on the same one-line input, with the base timestamp and
the clock pinned, differ in a field other than the parse-time `imported_at`
record: the `id` field is a fresh `uuid.uuid4()` draw and is different in the
two runs. -/
theorem c2_pinned_clock_counterexample :
    ¬ ((parse_conversation (some ["Hi, how are you?"]) 0 "T" (fun _ => "id-a")).map eraseImported
      = (parse_conversation (some ["Hi, how are you?"]) 0 "T" (fun _ => "id-b")).map eraseImported) := by
  decide

/-- C2, amended: with the base timestamp and the clock pinned, two runs of
`parse_conversation` on the same input agree on every field of every emitted
message — role, content, timestamp, and the whole metadata dictionary
including `imported_at` — except the `uuid.uuid4()`-drawn `id`. -/
theorem c2_determinism_up_to_ids (contents : Option (List String)) (base : Nat)
    (now : String) (ids1 ids2 : Nat → String) :
    (parse_conversation contents base now ids1).map eraseId
      = (parse_conversation contents base now ids2).map eraseId := by
  simp only [parse_conversation]
  by_cases h : read_file contents = []
  · simp [h]
  · rw [if_neg h, if_neg h]
    exact parseLoop_map_congr eraseId base now ids1 base now ids2
      (fun sp text ls le k => rfl) _ _ 0 [] none [] [] rfl

/-! ## Claim C3 — the four-line scenario -/

/-- C3, counterexample: on the scenario input, `parse_conversation` does not
emit 3 messages (it emits 4: the "Google Search" line is kept as a
system-role message by the parser; it is only dropped later by
`prepare_import_payload`). -/
theorem c3_scenario_counterexample :
    ¬ ((parse_conversation (some scenarioLines) 0 "T" witnessIds).length = 3) := by
  decide

/-- C3, amended: on the scenario input `parse_conversation` emits exactly 4
messages with roles kai, aletheia, system, aletheia — so the first emitted
message has the second-party role and the second the first-party role, as
claimed — and exactly 3 of them are non-system (what the downstream payload
preparation keeps).  This holds for every base timestamp, clock and uuid
stream. -/
theorem c3_scenario_amended (base : Nat) (now : String) (ids : Nat → String) :
    (parse_conversation (some scenarioLines) base now ids).map Message.role
      = [Role.kai, Role.aletheia, Role.system, Role.aletheia]
    ∧ (parse_conversation (some scenarioLines) base now ids).length = 4
    ∧ ((parse_conversation (some scenarioLines) base now ids).filter
        (fun m => m.role != Role.system)).length = 3 := by
  have hcore : (parse_conversation (some scenarioLines) base now ids).map coreView
      = (parse_conversation (some scenarioLines) 0 "" (fun _ => "")).map coreView := by
    simp only [parse_conversation]
    by_cases h : read_file (some scenarioLines) = []
    · simp [h]
    · rw [if_neg h, if_neg h]
      exact parseLoop_map_congr coreView base now ids 0 "" (fun _ => "")
        (fun sp text ls le k => rfl) _ _ 0 [] none [] [] rfl
  have hrole : (parse_conversation (some scenarioLines) base now ids).map Message.role
      = [Role.kai, Role.aletheia, Role.system, Role.aletheia] := by
    have h1 := congrArg
      (List.map (fun p : Role × String × List (String × MVal) => p.1)) hcore
    rw [List.map_map, List.map_map] at h1
    have h2 : ((fun p : Role × String × List (String × MVal) => p.1) ∘ coreView)
        = Message.role := rfl
    rw [h2] at h1
    rw [h1]
    decide
  refine ⟨hrole, ?_, ?_⟩
  · have := congrArg List.length hrole
    simpa using this
  · have hfil := List.filter_map (p := fun r => r != Role.system)
      (f := Message.role) (l := parse_conversation (some scenarioLines) base now ids)
    have hlen := congrArg List.length hfil
    rw [hrole] at hlen
    rw [List.length_map] at hlen
    have h3 : ((fun r => r != Role.system) ∘ Message.role)
        = (fun m : Message => m.role != Role.system) := rfl
    rw [h3] at hlen
    rw [← hlen]
    decide

/-! ## Claim C4 — provenance line ranges -/

/-- C4, divergence witness: on the input `["Hi?", "", "I am fine."]` the
first emitted message has content `"Hi?"`, which originates from source line
1 (line 2 is blank), yet the parser records `line_start = 2` and
`line_end = 2`: skipped blank lines are missing from `current_message`, so
`line_start = i + 1 - len(current_message)` and `line_end = i` overshoot the
true range.  The metadata therefore does not equal the 1-indexed inclusive
range of the lines the content came from. -/
theorem c4_line_range_divergence :
    (parse_conversation (some blankGapLines) 0 "T" witnessIds).length = 2
    ∧ ((parse_conversation (some blankGapLines) 0 "T" witnessIds).getD 0 dummyMessage).content = "Hi?"
    ∧ dictGet ((parse_conversation (some blankGapLines) 0 "T" witnessIds).getD 0
        dummyMessage).metadata "line_start" = some (MVal.nat 2)
    ∧ dictGet ((parse_conversation (some blankGapLines) 0 "T" witnessIds).getD 0
        dummyMessage).metadata "line_end" = some (MVal.nat 2)
    ∧ blankGapLines.getD 0 "" = "Hi?"
    ∧ blankGapLines.getD 1 "" = "" := by
  decide

/-! ## Claim C5 — synthetic timestamps -/

/-- C5: the k-th emitted message (0-indexed, counting only emitted messages)
carries timestamp `base + 2·k` minutes — `base_timestamp +
timedelta(minutes=len(self.messages) * 2)` with `base` fixed once per run —
and consequently timestamps strictly increase with emission order. -/
theorem c5_timestamp_synthesis (contents : Option (List String)) (base : Nat)
    (now : String) (ids : Nat → String) (k : Nat)
    (hk : k < (parse_conversation contents base now ids).length) :
    ((parse_conversation contents base now ids).getD k dummyMessage).timestamp
      = base + 2 * k
    ∧ ∀ j, j < k →
      ((parse_conversation contents base now ids).getD j dummyMessage).timestamp
        < ((parse_conversation contents base now ids).getD k dummyMessage).timestamp := by
  have hpos : ∀ k' m', (parse_conversation contents base now ids)[k']? = some m' →
      m'.timestamp = base + 2 * k' := by
    simp only [parse_conversation]
    by_cases h : read_file contents = []
    · simp [h]
    · rw [if_neg h]
      exact parseLoop_timestamp_inv base now ids _ _ 0 [] none [] (by simp)
  have hget : ∀ j, j < (parse_conversation contents base now ids).length →
      ((parse_conversation contents base now ids).getD j dummyMessage).timestamp
        = base + 2 * j := by
    intro j hj
    refine hpos j _ ?_
    rw [List.getD_eq_getElem _ _ hj]
    exact (List.getElem?_eq_getElem hj)
  refine ⟨hget k hk, fun j hj => ?_⟩
  rw [hget j (lt_trans hj hk), hget k hk]
  omega

/-- C5, witness: on the scenario input with base 7, the message at index 1
exists and carries timestamp `7 + 2·1`. -/
theorem c5_timestamp_synthesis_witness :
    1 < (parse_conversation (some scenarioLines) 7 "T" witnessIds).length
    ∧ ((parse_conversation (some scenarioLines) 7 "T" witnessIds).getD 1
        dummyMessage).timestamp = 7 + 2 * 1 := by
  refine ⟨by decide, ?_⟩
  exact (c5_timestamp_synthesis (some scenarioLines) 7 "T" witnessIds 1 (by decide)).1

/-! ## Dictionary lemmas -/

theorem dictGet_dictSet_self {α : Type} (d : List (String × α)) (k : String) (v : α) :
    dictGet (dictSet d k v) k = some v := by
  induction d with
  | nil => simp [dictGet, dictSet]
  | cons p rest ih =>
    by_cases h : p.1 = k
    · simp [dictGet, dictSet, h]
    · simp [dictGet, dictSet, h, ih]

theorem dictGet_dictSet_ne {α : Type} (d : List (String × α)) (k k' : String) (v : α)
    (h : k' ≠ k) :
    dictGet (dictSet d k v) k' = dictGet d k' := by
  induction d with
  | nil =>
    simp only [dictSet, dictGet]
    rw [if_neg (Ne.symm h)]
  | cons p rest ih =>
    by_cases hp : p.1 = k
    · have hp' : p.1 ≠ k' := by rw [hp]; exact Ne.symm h
      simp only [dictSet, if_pos hp, dictGet]
      rw [if_neg (Ne.symm h), if_neg hp']
    · by_cases hx : p.1 = k'
      · simp [dictGet, dictSet, hp, hx, h]
      · simp [dictGet, dictSet, hp, hx, h, ih]

/-- The four import-flow flags `create_batch` layers onto the metadata. -/
theorem dictGet_formatMsg_flags (i : Nat) (m : Message) :
    dictGet (formatMsg i m).metadata "historical_import" = some (MVal.bool true)
    ∧ dictGet (formatMsg i m).metadata "foundational_memory" = some (MVal.bool true)
    ∧ dictGet (formatMsg i m).metadata "batch_import" = some (MVal.bool true)
    ∧ dictGet (formatMsg i m).metadata "original_order" = some (MVal.nat i) := by
  simp only [formatMsg]
  refine ⟨?_, ?_, ?_, dictGet_dictSet_self _ _ _⟩
  · rw [dictGet_dictSet_ne _ _ _ _ (by decide), dictGet_dictSet_ne _ _ _ _ (by decide),
      dictGet_dictSet_ne _ _ _ _ (by decide)]
    exact dictGet_dictSet_self _ _ _
  · rw [dictGet_dictSet_ne _ _ _ _ (by decide), dictGet_dictSet_ne _ _ _ _ (by decide)]
    exact dictGet_dictSet_self _ _ _
  · rw [dictGet_dictSet_ne _ _ _ _ (by decide)]
    exact dictGet_dictSet_self _ _ _

/-- Keys other than the four flags read through `formatMsg` unchanged. -/
theorem dictGet_formatMsg_preserved (i : Nat) (m : Message) (key : String)
    (h1 : key ≠ "historical_import") (h2 : key ≠ "foundational_memory")
    (h3 : key ≠ "batch_import") (h4 : key ≠ "original_order") :
    dictGet (formatMsg i m).metadata key = dictGet m.metadata key := by
  simp only [formatMsg]
  rw [dictGet_dictSet_ne _ _ _ _ h4, dictGet_dictSet_ne _ _ _ _ h3,
    dictGet_dictSet_ne _ _ _ _ h2, dictGet_dictSet_ne _ _ _ _ h1]

/-! ## Lemmas about `create_batch` -/

theorem create_batch_length (msgs : List Message) (s b : Nat) :
    ((create_batch msgs s b).messages).length = min (s + b) msgs.length - s := by
  simp [create_batch]

theorem create_batch_getElem? (msgs : List Message) (s b j : Nat) :
    ((create_batch msgs s b).messages)[j]?
      = if j < min (s + b) msgs.length - s
        then some (formatMsg (s + j) (msgs.getD (s + j) dummyMessage))
        else none := by
  simp only [create_batch]
  rw [List.getElem?_map]
  by_cases h : j < min (s + b) msgs.length - s
  · rw [List.getElem?_range' _ _ h, if_pos h]
    simp
  · rw [if_neg h]
    have hnone : (List.range' s (min (s + b) msgs.length - s))[j]? = none := by
      rw [List.getElem?_eq_none]
      simpa [List.length_range'] using Nat.le_of_not_lt h
    rw [hnone]
    rfl

/-- Every message `parse_conversation` emits carries the four-key metadata
dictionary shape (`source`, `line_start`, `line_end`, `imported_at`). -/
theorem parse_meta_shape (contents : Option (List String)) (base : Nat)
    (now : String) (ids : Nat → String) :
    ∀ m ∈ parse_conversation contents base now ids, hasParseMeta now m := by
  simp only [parse_conversation]
  by_cases h : read_file contents = []
  · simp [h]
  · rw [if_neg h]
    exact parseLoop_meta_inv base now ids _ _ 0 [] none [] (by simp)

/-! ## Claim C6 — the reshaped batch records -/

/-- C6: for every batch `create_batch` builds over the parsed message
sequence and every record in it, the record echoes the parsed message's
role, content and timestamp unchanged, `externalId` equals the parse-time id,
every key-value pair of the parse-time metadata is still readable unchanged,
the three boolean import flags are set, and `original_order` is the
message's 0-based index in the full parsed sequence. -/
theorem c6_reshape_preserves (contents : Option (List String)) (base : Nat)
    (now : String) (ids : Nat → String) (s b j : Nat)
    (hj : j < ((create_batch (parse_conversation contents base now ids) s b).messages).length) :
    (((create_batch (parse_conversation contents base now ids) s b).messages).getD j dummyFMsg).role
      = ((parse_conversation contents base now ids).getD (s + j) dummyMessage).role
    ∧ (((create_batch (parse_conversation contents base now ids) s b).messages).getD j dummyFMsg).content
      = ((parse_conversation contents base now ids).getD (s + j) dummyMessage).content
    ∧ (((create_batch (parse_conversation contents base now ids) s b).messages).getD j dummyFMsg).timestamp
      = ((parse_conversation contents base now ids).getD (s + j) dummyMessage).timestamp
    ∧ (((create_batch (parse_conversation contents base now ids) s b).messages).getD j dummyFMsg).externalId
      = ((parse_conversation contents base now ids).getD (s + j) dummyMessage).id
    ∧ (∀ key v,
        dictGet ((parse_conversation contents base now ids).getD (s + j) dummyMessage).metadata key
          = some v →
        dictGet (((create_batch (parse_conversation contents base now ids) s b).messages).getD j dummyFMsg).metadata key
          = some v)
    ∧ dictGet (((create_batch (parse_conversation contents base now ids) s b).messages).getD j dummyFMsg).metadata "historical_import"
      = some (MVal.bool true)
    ∧ dictGet (((create_batch (parse_conversation contents base now ids) s b).messages).getD j dummyFMsg).metadata "foundational_memory"
      = some (MVal.bool true)
    ∧ dictGet (((create_batch (parse_conversation contents base now ids) s b).messages).getD j dummyFMsg).metadata "batch_import"
      = some (MVal.bool true)
    ∧ dictGet (((create_batch (parse_conversation contents base now ids) s b).messages).getD j dummyFMsg).metadata "original_order"
      = some (MVal.nat (s + j)) := by
  have hlen := create_batch_length (parse_conversation contents base now ids) s b
  have hjb : j < min (s + b) (parse_conversation contents base now ids).length - s := by
    rw [hlen] at hj
    exact hj
  have hjj : s + j < (parse_conversation contents base now ids).length := by
    omega
  have hbatch : ((create_batch (parse_conversation contents base now ids) s b).messages).getD j dummyFMsg
      = formatMsg (s + j) ((parse_conversation contents base now ids).getD (s + j) dummyMessage) := by
    rw [List.getD_eq_getElem?_getD, create_batch_getElem?, if_pos hjb]
    rfl
  have hmem : (parse_conversation contents base now ids).getD (s + j) dummyMessage
      ∈ parse_conversation contents base now ids := by
    rw [List.getD_eq_getElem _ _ hjj]
    exact List.getElem_mem hjj
  rcases parse_meta_shape contents base now ids _ hmem with ⟨ls, le, hshape⟩
  rw [hbatch]
  refine ⟨rfl, rfl, rfl, rfl, ?_, (dictGet_formatMsg_flags _ _).1,
    (dictGet_formatMsg_flags _ _).2.1, (dictGet_formatMsg_flags _ _).2.2.1,
    (dictGet_formatMsg_flags _ _).2.2.2⟩
  intro key v hv
  have hk1 : key ≠ "historical_import" := by
    rintro rfl
    rw [hshape] at hv
    rw [show dictGet (parseMeta now ls le) "historical_import" = none from rfl] at hv
    cases hv
  have hk2 : key ≠ "foundational_memory" := by
    rintro rfl
    rw [hshape] at hv
    rw [show dictGet (parseMeta now ls le) "foundational_memory" = none from rfl] at hv
    cases hv
  have hk3 : key ≠ "batch_import" := by
    rintro rfl
    rw [hshape] at hv
    rw [show dictGet (parseMeta now ls le) "batch_import" = none from rfl] at hv
    cases hv
  have hk4 : key ≠ "original_order" := by
    rintro rfl
    rw [hshape] at hv
    rw [show dictGet (parseMeta now ls le) "original_order" = none from rfl] at hv
    cases hv
  rw [dictGet_formatMsg_preserved _ _ _ hk1 hk2 hk3 hk4]
  exact hv

/-- C6, witness: on the scenario input, batch slice starting at offset 1 with
size 2: its record at local index 1 echoes the id of parsed message 2 and
carries `original_order = 2`. -/
theorem c6_reshape_preserves_witness :
    1 < ((create_batch (parse_conversation (some scenarioLines) 0 "T" witnessIds) 1 2).messages).length
    ∧ (((create_batch (parse_conversation (some scenarioLines) 0 "T" witnessIds) 1 2).messages).getD 1 dummyFMsg).externalId
      = ((parse_conversation (some scenarioLines) 0 "T" witnessIds).getD (1 + 1) dummyMessage).id
    ∧ dictGet (((create_batch (parse_conversation (some scenarioLines) 0 "T" witnessIds) 1 2).messages).getD 1 dummyFMsg).metadata "original_order"
      = some (MVal.nat (1 + 1)) := by
  have h := c6_reshape_preserves (some scenarioLines) 0 "T" witnessIds 1 2 1 (by decide)
  exact ⟨by decide, h.2.2.2.1, h.2.2.2.2.2.2.2.2⟩

/-! ## Lemmas about the upload loop -/

/-- Unrolling the upload fold: totals are sums of the per-batch deltas and the
submission trace is the iterated batch-number list. -/
theorem foldl_batchStep (batch_size : Nat) (messages : List Message)
    (net : Nat → Except Unit HttpResponse) (l : List Nat) (acc : RunTotals) :
    l.foldl (batchStep batch_size messages net) acc
      = { total_success := acc.total_success
            + (l.map (fun k => (batchDelta batch_size messages net k).2.1)).sum,
          total_failed := acc.total_failed
            + (l.map (fun k => (batchDelta batch_size messages net k).2.2)).sum,
          submitted := acc.submitted ++ l } := by
  induction l generalizing acc with
  | nil => simp
  | cons k rest ih =>
    rw [List.foldl_cons, ih]
    simp [batchStep, batchDelta, Nat.add_assoc]

/-- The run's totals and trace in closed form. -/
theorem runBatches_spec (batch_size : Nat) (messages : List Message)
    (net : Nat → Except Unit HttpResponse) :
    runBatches batch_size messages net
      = { total_success := ((List.range' 1 (total_batches_of messages.length batch_size)).map
            (fun k => (batchDelta batch_size messages net k).2.1)).sum,
          total_failed := ((List.range' 1 (total_batches_of messages.length batch_size)).map
            (fun k => (batchDelta batch_size messages net k).2.2)).sum,
          submitted := List.range' 1 (total_batches_of messages.length batch_size) } := by
  rw [runBatches, foldl_batchStep]
  simp

/-- `(n + b - 1) / b` batches suffice: `n ≤ tb * b`. -/
theorem le_total_batches_mul (n b : Nat) (hb : 1 ≤ b) :
    n ≤ total_batches_of n b * b := by
  have hd := Nat.div_add_mod (n + b - 1) b
  have hm : (n + b - 1) % b < b := Nat.mod_lt _ (by omega)
  unfold total_batches_of
  rw [Nat.mul_comm]
  omega

/-- `(n + b - 1) / b` is the least batch count covering all `n` messages:
it is the ceiling of `n / b`. -/
theorem total_batches_min (n b m : Nat) (hb : 1 ≤ b) (h : n ≤ m * b) :
    total_batches_of n b ≤ m := by
  unfold total_batches_of
  rw [Nat.div_le_iff_le_mul_add_pred (by omega)]
  have hc : m * b = b * m := Nat.mul_comm m b
  omega

theorem pred_mul_add (k b : Nat) (hk : 1 ≤ k) : (k - 1) * b + b = k * b := by
  cases k with
  | zero => omega
  | succ k' => simp [Nat.succ_mul]

/-- One more batch covers a list that is longer than zero. -/
theorem total_batches_succ (n b : Nat) (hb : 1 ≤ b) (hn : 1 ≤ n) :
    total_batches_of n b = total_batches_of (n - b) b + 1 := by
  unfold total_batches_of
  rcases le_or_lt n b with h | h
  · have h1 : (n + b - 1) / b = 1 :=
      Nat.div_eq_of_lt_le (by omega) (by omega)
    have h2 : n - b = 0 := by omega
    rw [h1, h2]
    rw [Nat.div_eq_of_lt (by omega)]
  · have h3 : n + b - 1 = (n - b + b - 1) + b := by omega
    rw [h3, Nat.add_div_right _ (by omega)]

/-- Concatenating the `(n + b - 1) / b` contiguous slices of width `b`
reproduces the original list (strong induction on the length). -/
theorem chunks_join_aux {α : Type} (b : Nat) (hb : 1 ≤ b) :
    ∀ (n : Nat) (l : List α), l.length = n →
      ((List.range' 1 (total_batches_of l.length b)).map
        (fun k => (l.drop ((k - 1) * b)).take b)).flatten = l := by
  intro n
  induction n using Nat.strong_induction_on with
  | _ n ih =>
    intro l hn
    cases l with
    | nil =>
      have h0 : total_batches_of ([] : List α).length b = 0 := by
        unfold total_batches_of
        simp only [List.length_nil, Nat.zero_add]
        exact Nat.div_eq_of_lt (by omega)
      rw [h0]
      simp
    | cons x xs =>
      have hn1 : 1 ≤ n := by
        rw [← hn]
        simp
      rw [hn, total_batches_succ n b hb hn1, List.range'_succ, List.map_cons,
        List.flatten_cons]
      have hf1 : (((x :: xs).drop ((1 - 1) * b)).take b) = (x :: xs).take b := by
        norm_num
      rw [hf1]
      have hmap : (List.range' (1 + 1) (total_batches_of (n - b) b)).map
          (fun k => ((x :: xs).drop ((k - 1) * b)).take b)
          = (List.range' 1 (total_batches_of (n - b) b)).map
              (fun k => (((x :: xs).drop b).drop ((k - 1) * b)).take b) := by
        rw [← List.map_add_range', List.map_map]
        apply List.map_congr_left
        intro k hk
        have hk1 : 1 ≤ k := by
          rcases List.mem_range'.mp hk with ⟨i, _, rfl⟩
          omega
        simp only [Function.comp]
        rw [List.drop_drop]
        rw [Nat.add_sub_cancel_left, Nat.add_comm b ((k - 1) * b),
          pred_mul_add k b hk1]
      rw [hmap]
      have hlen' : ((x :: xs).drop b).length = n - b := by
        simp [← hn]
      have hjoin := ih (n - b) (by omega) ((x :: xs).drop b) hlen'
      rw [hlen'] at hjoin
      rw [hjoin, List.take_append_drop]

/-- Concatenation of the width-`b` slices, stated directly. -/
theorem chunks_join {α : Type} (b : Nat) (hb : 1 ≤ b) (l : List α) :
    ((List.range' 1 (total_batches_of l.length b)).map
      (fun k => (l.drop ((k - 1) * b)).take b)).flatten = l :=
  chunks_join_aux b hb l.length l rfl

/-! ## Claim C1 — batch partitioning -/

/-- C1: for every batch size `b ≥ 1` and message list, the loop of
`batch_import` produces `⌈n/b⌉` batches (`total_batches_of` is the least
count `m` with `n ≤ m·b`), every batch except possibly the last holds exactly
`b` records, batch `k` (1-indexed) covers exactly the messages at 0-based
offsets `(k-1)·b … min(k·b, n) - 1`, concatenating the slices in order
reproduces the original message sequence exactly, and the loop submits
exactly the batch numbers `1 … total_batches` in order. -/
theorem c1_upload_partitioning (b : Nat) (msgs : List Message) (hb : 1 ≤ b) :
    (msgs.length ≤ total_batches_of msgs.length b * b
      ∧ ∀ m, msgs.length ≤ m * b → total_batches_of msgs.length b ≤ m)
    ∧ (∀ k, 1 ≤ k → k < total_batches_of msgs.length b →
        ((create_batch msgs ((k - 1) * b) b).messages).length = b)
    ∧ (∀ k j, 1 ≤ k →
        ((create_batch msgs ((k - 1) * b) b).messages)[j]?
          = if (k - 1) * b + j < min (k * b) msgs.length
            then (msgs[(k - 1) * b + j]?).map (formatMsg ((k - 1) * b + j))
            else none)
    ∧ ((List.range' 1 (total_batches_of msgs.length b)).map
        (fun k => (msgs.drop ((k - 1) * b)).take b)).flatten = msgs
    ∧ ∀ net, (runBatches b msgs net).submitted
        = List.range' 1 (total_batches_of msgs.length b) := by
  refine ⟨⟨le_total_batches_mul msgs.length b hb,
      fun m hm => total_batches_min msgs.length b m hb hm⟩, ?_, ?_, ?_, ?_⟩
  · intro k hk1 hk2
    have hkb : k * b < msgs.length := by
      by_contra hc
      have := total_batches_min msgs.length b k hb (Nat.le_of_not_lt hc)
      omega
    rw [create_batch_length, pred_mul_add k b hk1,
      Nat.min_eq_left (Nat.le_of_lt hkb)]
    have := pred_mul_add k b hk1
    omega
  · intro k j hk1
    rw [create_batch_getElem?]
    have hp := pred_mul_add k b hk1
    by_cases hc : j < min ((k - 1) * b + b) msgs.length - (k - 1) * b
    · have hlt : (k - 1) * b + j < msgs.length := by omega
      rw [if_pos hc, if_pos (by omega)]
      rw [List.getElem?_eq_getElem hlt, List.getD_eq_getElem _ _ hlt]
      rfl
    · rw [if_neg hc, if_neg (by omega)]
  · exact chunks_join b hb msgs
  · intro net
    rw [runBatches_spec]

/-- C1, witness: batch size 2 over three messages gives two batches whose
slices concatenate back to the list. -/
theorem c1_upload_partitioning_witness :
    ((List.range' 1 (total_batches_of ([dummyMessage, dummyMessage, dummyMessage] : List Message).length 2)).map
      (fun k => (([dummyMessage, dummyMessage, dummyMessage] : List Message).drop ((k - 1) * 2)).take 2)).flatten
      = [dummyMessage, dummyMessage, dummyMessage] :=
  (c1_upload_partitioning 2 [dummyMessage, dummyMessage, dummyMessage]
    (by decide)).2.2.2.1

/-! ## Claim C7 — failed batches -/

/-- C7: when the transport for batch `k` raises, or replies with a non-200
status, that batch contributes 0 to the cumulative success count and its full
message count to the cumulative failure count; the totals are exactly the
sums of the per-batch contributions over all `total_batches` batch numbers;
the loop's submission trace is the full ordered batch-number range whatever
the outcomes (the loop always proceeds to the next batch), and batch `k`
appears exactly once in it (a failed batch is never retried in the run). -/
theorem c7_failed_batch_accounting (msgs : List Message)
    (net : Nat → Except Unit HttpResponse) (k : Nat)
    (hk : k ∈ List.range' 1 (total_batches_of msgs.length 50))
    (hfail : net k = Except.error ()
      ∨ ∃ r, net k = Except.ok r ∧ r.status ≠ 200) :
    batchDelta 50 msgs net k
      = (false, 0, ((create_batch msgs ((k - 1) * 50) 50).messages).length)
    ∧ (runBatches 50 msgs net).total_success
      = ((List.range' 1 (total_batches_of msgs.length 50)).map
          (fun j => (batchDelta 50 msgs net j).2.1)).sum
    ∧ (runBatches 50 msgs net).total_failed
      = ((List.range' 1 (total_batches_of msgs.length 50)).map
          (fun j => (batchDelta 50 msgs net j).2.2)).sum
    ∧ (runBatches 50 msgs net).submitted
      = List.range' 1 (total_batches_of msgs.length 50)
    ∧ ((runBatches 50 msgs net).submitted).count k = 1 := by
  have hdelta : batchDelta 50 msgs net k
      = (false, 0, ((create_batch msgs ((k - 1) * 50) 50).messages).length) := by
    rcases hfail with herr | ⟨r, hok, hstatus⟩
    · simp [batchDelta, import_batch, herr]
    · simp [batchDelta, import_batch, hok, hstatus]
  refine ⟨hdelta, ?_, ?_, ?_, ?_⟩
  · rw [runBatches_spec]
  · rw [runBatches_spec]
  · rw [runBatches_spec]
  · rw [runBatches_spec]
    exact List.count_eq_one_of_mem (List.nodup_range' _ _) hk

/-- C7, witness: a single-message run whose only batch errors out: the batch
contributes `(0, 1)` and is submitted exactly once. -/
theorem c7_failed_batch_accounting_witness :
    batchDelta 50 [dummyMessage] (fun _ => Except.error ()) 1 = (false, 0, 1)
    ∧ ((runBatches 50 [dummyMessage] (fun _ => Except.error ())).submitted).count 1 = 1 := by
  have h := c7_failed_batch_accounting [dummyMessage] (fun _ => Except.error ()) 1
    (by decide) (Or.inl rfl)
  exact ⟨h.1.trans (by decide), h.2.2.2.2⟩

/-! ## Claim C8 — run-level outcome -/

/-- C8: the run is declared successful exactly when the cumulative success
count over all batches is positive — partial success counts as overall
success — and the process exit status is non-zero exactly when that count is
zero. -/
theorem c8_run_outcome (msgs : List Message)
    (net : Nat → Except Unit HttpResponse) :
    (batch_import (some msgs) net = true
      ↔ 0 < (runBatches 50 msgs net).total_success)
    ∧ (batchMainExit (some msgs) net = 0
      ↔ 0 < (runBatches 50 msgs net).total_success)
    ∧ (batchMainExit (some msgs) net ≠ 0
      ↔ (runBatches 50 msgs net).total_success = 0) := by
  have hb : batch_import (some msgs) net
      = decide (0 < (runBatches 50 msgs net).total_success) := rfl
  refine ⟨?_, ?_, ?_⟩
  · rw [hb]
    exact decide_eq_true_iff
  · rw [batchMainExit, hb]
    by_cases h : 0 < (runBatches 50 msgs net).total_success
    · simp [h]
    · simp [h]
  · rw [batchMainExit, hb]
    by_cases h : 0 < (runBatches 50 msgs net).total_success
    · simp [h]
      omega
    · simp [h]
      omega

/-! ## Claim C9 — unreadable input -/

/-- C9, counterexample: the claim's exit-status part is false.  With an
unreadable source file, `conversation_parser.main` prints "No messages were
parsed from the file." and falls off the end of the script: the exit status
is 0, not non-zero. -/
theorem c9_exit_status_counterexample :
    ¬ ((conversationMain none 0 "T" witnessIds).exitCode ≠ 0) := by
  decide

/-- C9, amended: when the source file is missing or unreadable, `read_file`
reports the condition without raising and returns the empty line list,
`parse_conversation` yields the empty message sequence, and the run ends
without writing an output file — but the process exit status is 0 (only the
wrong-argument-count path of `main` calls `sys.exit(1)`; the empty-parse path
does not). -/
theorem c9_unreadable_input_amended (base : Nat) (now : String)
    (ids : Nat → String) :
    read_file none = []
    ∧ parse_conversation none base now ids = []
    ∧ conversationMain none base now ids
        = { outputWritten := false, exitCode := 0 } :=
  ⟨rfl, rfl, rfl⟩

/-! ## Claim C10 — the `gnosisEntries` KeyError -/

/-- C10: `prepare_import_payload` only ever returns the two top-level keys
`data` and `options`; the first statement of `import_conversation`'s try
block reads `import_payload['gnosisEntries']`, so on every payload built by
`prepare_import_payload` it raises a `KeyError`, which the handler (catching
only `requests.exceptions.RequestException`) does not intercept — whatever
the network would have answered — and consequently `run_import` can never
return a successful outcome. -/
theorem c10_gnosis_key_error :
    (∀ (epoch : Nat) (cd : ConversationData),
      (prepare_import_payload epoch cd).map Prod.fst = ["data", "options"])
    ∧ (∀ (epoch : Nat) (cd : ConversationData),
      dictGet (prepare_import_payload epoch cd) "gnosisEntries" = none)
    ∧ (∀ (epoch : Nat) (cd : ConversationData) (net : Except Unit HttpResponse),
      import_conversation (prepare_import_payload epoch cd) net
        = Except.error PyErr.keyError)
    ∧ (∀ (connectivity : Bool) (loaded : Option ConversationData)
        (epoch : Nat) (net : Except Unit HttpResponse),
      run_import connectivity loaded epoch net ≠ Except.ok true) := by
  refine ⟨fun epoch cd => rfl, fun epoch cd => rfl, fun epoch cd net => rfl, ?_⟩
  intro connectivity loaded epoch net
  cases connectivity with
  | false => simp [run_import]
  | true =>
    cases loaded with
    | none => simp [run_import]
    | some cd =>
      have h : import_conversation (prepare_import_payload epoch cd) net
          = Except.error PyErr.keyError := rfl
      simp [run_import, h]

/-- C10, witness: a concrete run — connectivity up, an empty parsed document
loaded — does not end in a successful import. -/
theorem c10_gnosis_key_error_witness :
    run_import true
      (some { conversation_metadata :=
                { total_messages := 0, kai_messages := 0,
                  aletheia_messages := 0, system_messages := 0 },
              messages := [] }) 5 (Except.error ())
      ≠ Except.ok true :=
  c10_gnosis_key_error.2.2.2 true
    (some { conversation_metadata :=
              { total_messages := 0, kai_messages := 0,
                aletheia_messages := 0, system_messages := 0 },
            messages := [] }) 5 (Except.error ())

end Aletheia
